import Mathlib

/-!
Verification of the RadarColTfm contract-data pipeline.

This file gives a shallow embedding of the pipeline implemented in
`src/lib/contractsService.ts` and the dashboard page (risk filtering and
sorting), and proves properties of that embedding.

Modelling conventions:
- JavaScript numbers are modelled as rationals (`ℚ`); `NaN` outcomes are
  modelled by `Option` (`none` = not a number).
- JavaScript strings are `String`; where character-level processing happens
  the model works on `String.data` (the list of characters).
- `Date` values are modelled by their millisecond timestamp (`Int`); the
  host `new Date(string)` constructor is passed in as a function
  `newDate : String → Int` where a component constructs dates.
- The locale-aware `localeCompare` is modelled as the sign of a total
  lexicographic comparison of the character lists.  The properties proved
  below depend only on it being the sign function of a total order.
- The stable `Array.prototype.sort` required by ECMAScript is modelled by
  insertion sort, which is stable; for a consistent comparator every stable
  sort produces the same output.
-/

/-! ## Models of the JavaScript primitives used by the pipeline -/

/-- Numeric value of a list of decimal digit characters, most significant
first (the usual positional reading used by `parseFloat`). -/
def digitsToNat (ds : List Char) : Nat :=
  ds.foldl (fun acc c => 10 * acc + (c.toNat - 48)) 0

/-- Model of the ECMAScript `parseFloat` applied to a character list:
an optional sign, then either digits optionally followed by a dot and more
digits, or a dot followed by digits; the longest such prefix is the value
and anything after it is ignored.  `none` models `NaN` (no valid prefix).
The pipeline only calls `parseFloat` on strings already stripped to the
characters `0-9`, `.` and `-`, so the whitespace/`Infinity`/exponent parts
of the full grammar cannot arise and are not modelled. -/
def jsParseFloat (cs : List Char) : Option ℚ :=
  let signAndRest : ℚ × List Char :=
    match cs with
    | '-' :: t => (-1, t)
    | '+' :: t => (1, t)
    | t => (1, t)
  let intDigits := signAndRest.2.takeWhile Char.isDigit
  let afterInt := signAndRest.2.dropWhile Char.isDigit
  match afterInt with
  | '.' :: t =>
    let fracDigits := t.takeWhile Char.isDigit
    if intDigits.isEmpty && fracDigits.isEmpty then none
    else some (signAndRest.1 *
      ((digitsToNat intDigits : ℚ) +
        (digitsToNat fracDigits : ℚ) / (10 : ℚ) ^ fracDigits.length))
  | _ =>
    if intDigits.isEmpty then none
    else some (signAndRest.1 * (digitsToNat intDigits : ℚ))

/-- Model of `Math.round`: round half away from zero upwards
(`Math.round(x)` is the integer closest to `x`, with ties going towards
positive infinity). -/
def jsRound (x : ℚ) : ℤ := ⌊x + 1 / 2⌋

/-- Model of `a.localeCompare(b, "es")`: the sign of a lexicographic
comparison of the character lists.  Only the fact that this is the sign
function of a total order on strings is used by the theorems below, so the
difference between the Spanish collation and the code-point order does not
affect them. -/
def localeCompare (a b : String) : Int :=
  if a.data < b.data then -1 else if b.data < a.data then 1 else 0

/-! ## Data model (`@/types/contract`, `@/types/analysis`)

The type declaration files are not part of the provided sources; the
structures below are reconstructed from their use in
`src/lib/contractsService.ts` and the wire shapes given in the spec. -/

/-- Internal risk level (`"high" | "medium" | "low"`). -/
inductive RiskLevel
  | high
  | medium
  | low
  deriving DecidableEq

/-- Internal normalized contract entity. -/
structure Contract where
  id : String
  nombreContrato : String
  entidad : String
  monto : ℚ
  fecha : Option Int
  nivelRiesgo : RiskLevel
  probabilidadAnomalia : ℚ
  deriving DecidableEq

/-- Nested code/description pair of the raw list record. -/
structure ApiContrato where
  Codigo : String
  Descripcion : String
  deriving DecidableEq

/-- Raw API list record (`RawContract` wire shape).  `Monto` is carried as
its string form (the code always goes through `Monto.toString()`);
`FechaInicio` is an optional date string. -/
structure ApiContract where
  Contrato : ApiContrato
  Entidad : String
  Monto : String
  FechaInicio : Option String
  NivelRiesgo : String
  Anomalia : ℚ
  deriving DecidableEq

/-- Response body of the list endpoint (the `metadata` blob is opaque to
the pipeline and omitted). -/
structure ContractsApiResponse where
  totalContratosAnalizados : ℚ
  contratosAltoRiesgo : ℚ
  montoTotalCOP : ℚ
  contratos : List ApiContract
  deriving DecidableEq

/-- Filter specification (`ContractFilters` in `contractsService.ts`). -/
structure ContractFilters where
  fechaDesde : Option String := none
  fechaHasta : Option String := none
  valorMinimo : Option ℚ := none
  valorMaximo : Option ℚ := none
  nombreContrato : Option String := none
  idContrato : Option String := none
  nivelesRiesgo : Option (List RiskLevel) := none

/-! ## Normalizer and validator -/

/-- Conversion of the API risk level to the internal format
(`contractsService.ts` lines 56-67).  The TypeScript `switch` has a
`default` branch returning `"low"`, so the input is modelled as an
arbitrary string. -/
def normalizeRiskLevel (apiLevel : String) : RiskLevel :=
  if apiLevel = "Alto" then .high
  else if apiLevel = "Medio" then .medium
  else if apiLevel = "Bajo" then .low
  else .low

/-- The character filter of `Monto.toString().replace(/[^0-9.-]/g, "")`:
keep only digits, dots and minus signs. -/
def cleanAmount (s : String) : List Char :=
  s.data.filter (fun c => c.isDigit || c == '.' || c == '-')

/-- Transformation of a raw list record to the internal format
(`transformApiContract`, `contractsService.ts` lines 72-86).
`monto` is `parseFloat` of the cleaned amount with `NaN` replaced by `0`;
`fecha` is `null` when `FechaInicio` is absent or empty (falsy), otherwise
the constructed date. -/
def transformApiContract (newDate : String → Int) (apiContract : ApiContract) : Contract :=
  let monto := jsParseFloat (cleanAmount apiContract.Monto)
  { id := apiContract.Contrato.Codigo
    nombreContrato := apiContract.Contrato.Descripcion
    entidad := apiContract.Entidad
    monto := monto.getD 0
    fecha :=
      match apiContract.FechaInicio with
      | some s => if s = "" then none else some (newDate s)
      | none => none
    nivelRiesgo := normalizeRiskLevel apiContract.NivelRiesgo
    probabilidadAnomalia := apiContract.Anomalia }

/-- The per-record validity check of `fetchContracts`
(`contractsService.ts` lines 186-196): `Contrato.Codigo`, `Entidad` and
`NivelRiesgo` must be truthy (for strings: non-empty), while `Monto` and
`Anomalia` must only be defined, which always holds for a well-typed
record.  Absent (`undefined`/`null`) required fields of a malformed JSON
record are modelled by the falsy values the check tests for. -/
def isValidApiContract (contract : ApiContract) : Bool :=
  contract.Contrato.Codigo != "" &&
  contract.Entidad != "" &&
  contract.NivelRiesgo != ""

/-- Result shape of `fetchContracts`. -/
structure FetchContractsResult where
  apiResponse : ContractsApiResponse
  contracts : List Contract

/-- The data path of `fetchContracts` (`contractsService.ts` lines
135-259) after a successful HTTP round trip and JSON parse: records
failing the validity check are dropped, the remainder is transformed, and
the response is returned with its record array replaced by the validated
one.  Transport errors, non-2xx statuses and a missing `contratos` array
all (re)throw and deliver no value, so the embedding covers exactly the
accepted-response path; the presence of the array is encoded by the type. -/
def fetchContracts (newDate : String → Int) (apiResponse : ContractsApiResponse) :
    FetchContractsResult :=
  let validContracts := apiResponse.contratos.filter isValidApiContract
  let contracts := validContracts.map (transformApiContract newDate)
  { apiResponse := { apiResponse with contratos := validContracts }
    contracts := contracts }

/-! ## Query builder -/

/-- The `limit` parameter appended by `buildQueryParams` when a limit is
given, clamped into `[1, 100]`. -/
def limitParam (limit : Option Nat) : List (String × String) :=
  match limit with
  | some l => [("limit", toString (min (max l 1) 100))]
  | none => []

/-- The `fecha_desde` parameter: appended when present and truthy
(for a string: non-empty). -/
def fechaDesdeParam (f : ContractFilters) : List (String × String) :=
  match f.fechaDesde with
  | some s => if s = "" then [] else [("fecha_desde", s)]
  | none => []

/-- The `fecha_hasta` parameter, like `fecha_desde`. -/
def fechaHastaParam (f : ContractFilters) : List (String × String) :=
  match f.fechaHasta with
  | some s => if s = "" then [] else [("fecha_hasta", s)]
  | none => []

/-- The `valor_minimo` parameter: appended only when defined and `≥ 0`. -/
def valorMinimoParam (f : ContractFilters) : List (String × String) :=
  match f.valorMinimo with
  | some v => if 0 ≤ v then [("valor_minimo", toString v)] else []
  | none => []

/-- The `valor_maximo` parameter: appended only when defined and `≥ 0`. -/
def valorMaximoParam (f : ContractFilters) : List (String × String) :=
  match f.valorMaximo with
  | some v => if 0 ≤ v then [("valor_maximo", toString v)] else []
  | none => []

/-- The `nombre_contrato` parameter: appended only when the name is truthy
and at least 3 characters long (the length test subsumes truthiness). -/
def nombreContratoParam (f : ContractFilters) : List (String × String) :=
  match f.nombreContrato with
  | some s => if 3 ≤ s.length then [("nombre_contrato", s)] else []
  | none => []

/-- The `id_contrato` parameter: appended when present and truthy. -/
def idContratoParam (f : ContractFilters) : List (String × String) :=
  match f.idContrato with
  | some s => if s = "" then [] else [("id_contrato", s)]
  | none => []

/-- The ordered key/value pairs appended to the `URLSearchParams` by
`buildQueryParams` (`contractsService.ts` lines 92-125): each conditional
`append` contributes its (possibly empty) segment in program order.
Numeric values are stringified with `toString`; for the properties proved
here only the presence and order of the parameters matter. -/
def queryParamsList (filters : Option ContractFilters) (limit : Option Nat) :
    List (String × String) :=
  limitParam limit ++
    match filters with
    | none => []
    | some f =>
      fechaDesdeParam f ++ fechaHastaParam f ++ valorMinimoParam f ++
        valorMaximoParam f ++ nombreContratoParam f ++ idContratoParam f

/-- Rendering of the parameter list as the returned query string:
empty when no parameter was appended, otherwise `?k=v&k=v&...`
(the percent-encoding applied by `URLSearchParams.toString` is not
modelled; no proved property depends on the value encoding). -/
def buildQueryParams (filters : Option ContractFilters) (limit : Option Nat) : String :=
  let ps := queryParamsList filters limit
  match ps with
  | [] => ""
  | _ => "?" ++ String.intercalate "&" (ps.map (fun p => p.1 ++ "=" ++ p.2))

/-! ## Stats aggregator -/

/-- Result record of `getDashboardStats`. -/
structure DashboardStats where
  total : Nat
  highRisk : Nat
  totalAmount : ℚ
  avgAnomaly : ℤ
  totalContratosAnalizados : ℚ
  contratosAltoRiesgo : ℚ
  montoTotalCOP : ℚ
  porcentajeAltoRiesgo : ℚ

/-- Dashboard statistics (`getDashboardStats`, `contractsService.ts` lines
264-286).  The average anomaly is computed only when the list is non-empty
(guarding the `NaN` of `0/0`) and rounded with `Math.round`; the high-risk
percentage divides only when `totalContratosAnalizados > 0`. -/
def getDashboardStats (contracts : List Contract) (apiResponse : ContractsApiResponse) :
    DashboardStats :=
  let total := contracts.length
  let highRisk := (contracts.filter (fun c => decide (c.nivelRiesgo = .high))).length
  let totalAmount := contracts.foldl (fun sum c => sum + c.monto) 0
  let avgAnomaly : ℚ :=
    if 0 < contracts.length then
      (contracts.foldl (fun sum c => sum + c.probabilidadAnomalia) 0) / (contracts.length : ℚ)
    else 0
  { total := total
    highRisk := highRisk
    totalAmount := totalAmount
    avgAnomaly := jsRound avgAnomaly
    totalContratosAnalizados := apiResponse.totalContratosAnalizados
    contratosAltoRiesgo := apiResponse.contratosAltoRiesgo
    montoTotalCOP := apiResponse.montoTotalCOP
    porcentajeAltoRiesgo :=
      if 0 < apiResponse.totalContratosAnalizados then
        apiResponse.contratosAltoRiesgo / apiResponse.totalContratosAnalizados * 100
      else 0 }

/-! ## Paginator -/

/-- Pagination configuration (page is 1-based). -/
structure PaginationConfig where
  page : Nat
  pageSize : Nat
  totalItems : Nat
  deriving DecidableEq

/-- Pagination result with metadata. -/
structure PaginationResult (α : Type) where
  data : List α
  pagination : PaginationConfig
  hasNextPage : Bool
  hasPrevPage : Bool
  totalPages : Nat
  deriving DecidableEq

/-- Slicing of a list into one page (`paginateData`, `contractsService.ts`
lines 291-323).  `data.slice(s, s + n)` for `0 ≤ s` is drop `s` then take
`n`; `Math.ceil(totalItems / pageSize)` is ceiling division, written on
naturals as `(totalItems + pageSize - 1) / pageSize` (equal to the ceiling
for every `pageSize ≥ 1`, the only sizes the caller can produce). -/
def paginateData {α : Type} (data : List α) (page : Nat) (pageSize : Nat) :
    PaginationResult α :=
  let totalItems := data.length
  let totalPages := (totalItems + pageSize - 1) / pageSize
  let startIndex := (page - 1) * pageSize
  let paginatedData := (data.drop startIndex).take pageSize
  { data := paginatedData
    pagination := { page := page, pageSize := pageSize, totalItems := totalItems }
    hasNextPage := decide (page < totalPages)
    hasPrevPage := decide (1 < page)
    totalPages := totalPages }

/-! ## Sorter (dashboard page, `sortContracts`) -/

/-- Sortable fields (`SortField` in `ContractTable.tsx`). -/
inductive SortField
  | id
  | entidad
  | monto
  | fecha
  | nivelRiesgo
  | probabilidadAnomalia
  deriving DecidableEq

/-- Sort directions. -/
inductive SortDirection
  | asc
  | desc
  deriving DecidableEq

/-- Ordinal severity used by the `nivelRiesgo` comparator:
`high = 3 > medium = 2 > low = 1`. -/
def riskOrder : RiskLevel → Nat
  | .high => 3
  | .medium => 2
  | .low => 1

/-- The number returned by the comparator passed to `sort` for a field in
ascending direction (dashboard page lines 81-129): `localeCompare` for the
string fields, and the difference of the extracted numeric values for the
numeric ones.  A missing `fecha` is turned into the timestamp `0` by the
extraction (`a.fecha ? a.fecha.getTime() : 0`), so the comparator
null-value guards can never fire: every branch of the `switch` produces a
non-null value for a well-typed contract. -/
def compareValue (field : SortField) (a b : Contract) : ℚ :=
  match field with
  | .id => (localeCompare a.id b.id : ℚ)
  | .entidad => (localeCompare a.entidad b.entidad : ℚ)
  | .monto => a.monto - b.monto
  | .fecha => ((a.fecha.getD 0 : Int) : ℚ) - ((b.fecha.getD 0 : Int) : ℚ)
  | .nivelRiesgo => (riskOrder a.nivelRiesgo : ℚ) - (riskOrder b.nivelRiesgo : ℚ)
  | .probabilidadAnomalia => a.probabilidadAnomalia - b.probabilidadAnomalia

/-- The comparator including the direction: descending negates the
ascending result. -/
def contractComparator (field : SortField) (direction : SortDirection) (a b : Contract) : ℚ :=
  match direction with
  | .asc => compareValue field a b
  | .desc => -(compareValue field a b)

/-- The "keep `a` no later than `b`" relation induced by the comparator
(comparator result `≤ 0`), written directly on the extracted values so
that it is executable; `contractLe_iff` proves it equal to the sign
condition on `contractComparator`. -/
def contractLe (field : SortField) (direction : SortDirection) (a b : Contract) : Prop :=
  match direction, field with
  | .asc, .id => localeCompare a.id b.id ≤ 0
  | .asc, .entidad => localeCompare a.entidad b.entidad ≤ 0
  | .asc, .monto => a.monto ≤ b.monto
  | .asc, .fecha => (a.fecha.getD 0 : Int) ≤ (b.fecha.getD 0 : Int)
  | .asc, .nivelRiesgo => riskOrder a.nivelRiesgo ≤ riskOrder b.nivelRiesgo
  | .asc, .probabilidadAnomalia => a.probabilidadAnomalia ≤ b.probabilidadAnomalia
  | .desc, .id => localeCompare b.id a.id ≤ 0
  | .desc, .entidad => localeCompare b.entidad a.entidad ≤ 0
  | .desc, .monto => b.monto ≤ a.monto
  | .desc, .fecha => (b.fecha.getD 0 : Int) ≤ (a.fecha.getD 0 : Int)
  | .desc, .nivelRiesgo => riskOrder b.nivelRiesgo ≤ riskOrder a.nivelRiesgo
  | .desc, .probabilidadAnomalia => b.probabilidadAnomalia ≤ a.probabilidadAnomalia

instance (field : SortField) (direction : SortDirection) :
    DecidableRel (contractLe field direction) := fun a b => by
  unfold contractLe
  cases direction <;> cases field <;> infer_instance

/-- Sorting of the working set (`sortContracts`, dashboard page lines
77-130).  No field means identity.  The ECMAScript `sort` is required to
be stable; it is modelled by insertion sort with the comparator-induced
relation, which any stable sort agrees with for a consistent comparator. -/
def sortContracts (contracts : List Contract) (field : Option SortField)
    (direction : SortDirection) : List Contract :=
  match field with
  | none => contracts
  | some f => contracts.insertionSort (contractLe f direction)

/-! ## Client-side risk filter (dashboard page, `loadContracts`) -/

/-- The client-side risk-level filter applied inside `loadContracts`
(dashboard page lines 177-188): when `nivelesRiesgo` is present and
non-empty keep exactly the contracts whose level is included, otherwise
keep everything. -/
def filterByRiskLevels (filters : ContractFilters) (contracts : List Contract) :
    List Contract :=
  match filters.nivelesRiesgo with
  | some levels =>
    if 0 < levels.length then
      contracts.filter (fun contract => decide (contract.nivelRiesgo ∈ levels))
    else contracts
  | none => contracts

/-! ## Detail path (`fetchContractAnalysis` and its fallback) -/

/-- One SHAP attribution row.  The source field `variable` is a reserved
word in Lean and is embedded as `shapVariable`. -/
structure ShapValue where
  shapVariable : String
  value : ℚ
  description : String
  actualValue : Option ℚ
  deriving DecidableEq

/-- Raw analysis object of the detail endpoint (`ApiAnalysisModel`). -/
structure ApiAnalysisModel where
  contractId : String
  resumenEjecutivo : String
  factoresPrincipales : List String
  recomendaciones : List String
  shapValues : List ShapValue
  probabilidadBase : ℚ
  confianza : ℚ
  fechaAnalisis : String
  deriving DecidableEq

/-- Internal analysis with the timestamp materialized as a date. -/
structure ContractAnalysis where
  contractId : String
  resumenEjecutivo : String
  factoresPrincipales : List String
  recomendaciones : List String
  shapValues : List ShapValue
  probabilidadBase : ℚ
  confianza : ℚ
  fechaAnalisis : Int
  deriving DecidableEq

/-- Transformation of the API analysis to the internal format
(`transformApiAnalysis`, `contractsService.ts` lines 344-360). -/
def transformApiAnalysis (newDate : String → Int) (apiAnalysis : ApiAnalysisModel) :
    ContractAnalysis :=
  { contractId := apiAnalysis.contractId
    resumenEjecutivo := apiAnalysis.resumenEjecutivo
    factoresPrincipales := apiAnalysis.factoresPrincipales
    recomendaciones := apiAnalysis.recomendaciones
    shapValues := apiAnalysis.shapValues.map (fun shap =>
      { shapVariable := shap.shapVariable
        value := shap.value
        description := shap.description
        actualValue := shap.actualValue })
    probabilidadBase := apiAnalysis.probabilidadBase
    confianza := apiAnalysis.confianza
    fechaAnalisis := newDate apiAnalysis.fechaAnalisis }

/-- Raw contract object of the detail endpoint body. -/
structure ApiDetailContract where
  codigo : String
  descripcion : String
  entidad : String
  monto : String
  fechaInicio : Option String
  nivelRiesgo : String
  anomalia : ℚ
  deriving DecidableEq

/-- The inline transformation of the detail contract inside
`fetchContractAnalysis` (`contractsService.ts` lines 441-451): the same
amount cleaning and parsing as the list path, and an inline risk mapping
with every label other than `Alto`/`Medio` going to `low`. -/
def transformDetailContract (newDate : String → Int) (c : ApiDetailContract) : Contract :=
  let monto := jsParseFloat (cleanAmount c.monto)
  { id := c.codigo
    nombreContrato := c.descripcion
    entidad := c.entidad
    monto := monto.getD 0
    fecha :=
      match c.fechaInicio with
      | some s => if s = "" then none else some (newDate s)
      | none => none
    nivelRiesgo :=
      if c.nivelRiesgo = "Alto" then .high
      else if c.nivelRiesgo = "Medio" then .medium
      else .low
    probabilidadAnomalia := c.anomalia }

/-- Contract/analysis pair returned by the detail path. -/
structure AnalysisResult where
  contract : Contract
  analysis : ContractAnalysis
  deriving DecidableEq

/-- Fallback lookup (`getMockAnalysisForContract`, `contractsService.ts`
lines 366-387).  The mock dataset files (`src/data/mockContracts`,
`src/data/mockAnalysis`) are not among the provided sources, so the data
is passed in as parameters: `mockContracts` models
`getMockContracts().contracts` and `mockAnalyses` the keyed record
`mockAnalyses` (an association list; `Object.values` order is its list
order).  `none` models the undefined-spread garbage the JavaScript would
produce from an empty mock dataset, which the real (non-empty) dataset
never triggers. -/
def getMockAnalysisForContract (mockContracts : List Contract)
    (mockAnalyses : List (String × ContractAnalysis)) (contractId : String) :
    Option AnalysisResult :=
  match mockContracts.find? (fun c => c.id == contractId) with
  | none =>
    match mockContracts.head?, (mockAnalyses.map Prod.snd).head? with
    | some firstContract, some firstAnalysis =>
      some { contract := { firstContract with id := contractId }
             analysis := { firstAnalysis with contractId := contractId } }
    | _, _ => none
  | some contract =>
    match ((mockAnalyses.find? (fun p => p.1 == contractId)).map Prod.snd).orElse
        (fun _ => (mockAnalyses.map Prod.snd).head?) with
    | some analysis =>
      some { contract := contract
             analysis := { analysis with contractId := contractId } }
    | none => none

/-- Parsed JSON body of a 2xx detail response; either object may be
missing (`undefined`), which the code treats as a hard failure. -/
structure DetailBody where
  contract : Option ApiDetailContract
  analysis : Option ApiAnalysisModel

/-- Outcome of the detail HTTP round trip as seen by
`fetchContractAnalysis`: the connection failed, the status was outside
2xx (404 included), or a 2xx response whose JSON body was parsed. -/
inductive DetailFetchOutcome
  | transportError
  | badStatus (status : Nat)
  | okBody (body : DetailBody)

/-- The detail path (`fetchContractAnalysis`, `contractsService.ts` lines
396-475).  Every raised error — transport failure, non-2xx status (404
included), or a 2xx body missing the contract or analysis object — is
caught by the surrounding `try`/`catch`, which answers with the local
fallback instead of re-raising.  (A body missing either object throws at
the latest in the explicit validation, and is caught the same way.) -/
def fetchContractAnalysis (newDate : String → Int) (mockContracts : List Contract)
    (mockAnalyses : List (String × ContractAnalysis)) (contractId : String)
    (outcome : DetailFetchOutcome) : Option AnalysisResult :=
  match outcome with
  | .transportError => getMockAnalysisForContract mockContracts mockAnalyses contractId
  | .badStatus _ => getMockAnalysisForContract mockContracts mockAnalyses contractId
  | .okBody body =>
    match body.contract, body.analysis with
    | some c, some a =>
      some { contract := transformDetailContract newDate c
             analysis := transformApiAnalysis newDate a }
    | _, _ => getMockAnalysisForContract mockContracts mockAnalyses contractId

/-! ## Helper lemmas -/

theorem localeCompare_self (a : String) : localeCompare a a = 0 := by
  simp [localeCompare]

theorem localeCompare_nonpos (a b : String) :
    localeCompare a b ≤ 0 ↔ a.data ≤ b.data := by
  unfold localeCompare
  split_ifs with h1 h2
  · simp [le_of_lt h1]
  · simp [not_le.mpr h2]
  · simp [le_of_not_lt h2]

theorem localeCompare_nonneg (a b : String) :
    0 ≤ localeCompare a b ↔ b.data ≤ a.data := by
  unfold localeCompare
  split_ifs with h1 h2
  · simp [not_le.mpr h1]
  · simp [le_of_lt h2]
  · simp [le_of_not_lt h1]

theorem contractLe_iff (field : SortField) (direction : SortDirection) (a b : Contract) :
    contractLe field direction a b ↔ contractComparator field direction a b ≤ 0 := by
  cases direction <;> cases field <;>
    simp only [contractLe, contractComparator, compareValue, sub_nonpos, sub_nonneg,
      neg_nonpos, Int.cast_le, Nat.cast_le, Int.cast_nonpos, Int.cast_nonneg,
      localeCompare_nonpos, localeCompare_nonneg]

instance (field : SortField) (direction : SortDirection) :
    IsTrans Contract (contractLe field direction) := by
  constructor
  intro a b c hab hbc
  cases direction <;> cases field <;>
    simp only [contractLe, localeCompare_nonpos] at hab hbc ⊢ <;>
    first
    | exact le_trans hab hbc
    | exact le_trans hbc hab

instance (field : SortField) (direction : SortDirection) :
    IsTotal Contract (contractLe field direction) := by
  constructor
  intro a b
  cases direction <;> cases field <;>
    simp only [contractLe, localeCompare_nonpos] <;>
    exact le_total _ _

/-- Equality of the values the comparator extracts for a field (the
`aValue`/`bValue` of the source). -/
def sortKeyEqual (field : SortField) (a b : Contract) : Prop :=
  match field with
  | .id => a.id = b.id
  | .entidad => a.entidad = b.entidad
  | .monto => a.monto = b.monto
  | .fecha => a.fecha.getD 0 = b.fecha.getD 0
  | .nivelRiesgo => riskOrder a.nivelRiesgo = riskOrder b.nivelRiesgo
  | .probabilidadAnomalia => a.probabilidadAnomalia = b.probabilidadAnomalia

instance (field : SortField) (a b : Contract) : Decidable (sortKeyEqual field a b) := by
  unfold sortKeyEqual
  cases field <;> infer_instance

theorem contractLe_of_sortKeyEqual {field : SortField} (direction : SortDirection)
    {a b : Contract} (h : sortKeyEqual field a b) : contractLe field direction a b := by
  cases direction <;> cases field <;>
    simp only [sortKeyEqual] at h <;>
    simp only [contractLe, h, le_refl, localeCompare_self]



theorem foldl_add_eq_sum (f : Contract → ℚ) :
    ∀ (l : List Contract) (init : ℚ),
      l.foldl (fun sum c => sum + f c) init = init + (l.map f).sum
  | [], init => by simp
  | c :: t, init => by
    simp only [List.foldl_cons, List.map_cons, List.sum_cons]
    rw [foldl_add_eq_sum f t]
    ring

/-! ## Claims -/

/-- C10: for every raw risk-level label outside the set
`{"Alto", "Medio", "Bajo"}`, `normalizeRiskLevel` returns `low`. -/
theorem claim10_normalizeRiskLevel_default (s : String)
    (h1 : s ≠ "Alto") (h2 : s ≠ "Medio") (h3 : s ≠ "Bajo") :
    normalizeRiskLevel s = RiskLevel.low := by
  simp [normalizeRiskLevel, h1, h2, h3]

/-- Witness for C10 at the concrete unrecognized label `"Desconocido"`. -/
theorem claim10_witness :
    "Desconocido" ≠ "Alto" ∧ "Desconocido" ≠ "Medio" ∧ "Desconocido" ≠ "Bajo" ∧
      normalizeRiskLevel "Desconocido" = RiskLevel.low :=
  ⟨by decide, by decide, by decide,
    claim10_normalizeRiskLevel_default "Desconocido" (by decide) (by decide) (by decide)⟩

/-- C8: the client-side risk-level filter is idempotent (applying it twice
with the same filter specification equals applying it once) and
order-preserving (its output is a sublist of its input, so kept contracts
stay in their original relative order). -/
theorem claim8_filterByRiskLevels_idempotent_order_preserving
    (filters : ContractFilters) (contracts : List Contract) :
    filterByRiskLevels filters (filterByRiskLevels filters contracts) =
        filterByRiskLevels filters contracts
    ∧ List.Sublist (filterByRiskLevels filters contracts) contracts := by
  unfold filterByRiskLevels
  cases filters.nivelesRiesgo with
  | none => exact ⟨rfl, List.Sublist.refl _⟩
  | some levels =>
    by_cases hl : 0 < levels.length
    · simp only [hl, if_true]
      refine ⟨?_, List.filter_sublist _⟩
      rw [List.filter_filter]
      apply List.filter_congr
      intro a _
      simp
    · simp only [if_neg hl]
      exact ⟨trivial, List.Sublist.refl _⟩

/-- C9: `getDashboardStats` returns the rounded mean anomaly probability
(`0` on an empty contract list, with no `0/0` division), and the high-risk
percentage `contratosAltoRiesgo / totalContratosAnalizados * 100` guarded
so that a zero (or non-positive) denominator yields `0` without dividing. -/
theorem claim9_getDashboardStats_guards (contracts : List Contract)
    (apiResponse : ContractsApiResponse) :
    (contracts = [] → (getDashboardStats contracts apiResponse).avgAnomaly = 0)
    ∧ (contracts ≠ [] → (getDashboardStats contracts apiResponse).avgAnomaly =
        jsRound ((contracts.map Contract.probabilidadAnomalia).sum / (contracts.length : ℚ)))
    ∧ (apiResponse.totalContratosAnalizados = 0 →
        (getDashboardStats contracts apiResponse).porcentajeAltoRiesgo = 0)
    ∧ (0 < apiResponse.totalContratosAnalizados →
        (getDashboardStats contracts apiResponse).porcentajeAltoRiesgo =
          apiResponse.contratosAltoRiesgo / apiResponse.totalContratosAnalizados * 100) := by
  refine ⟨?_, ?_, ?_, ?_⟩
  · intro h
    subst h
    norm_num [getDashboardStats, jsRound]
  · intro h
    have hlen : 0 < contracts.length := List.length_pos.mpr h
    simp only [getDashboardStats, hlen, if_true]
    rw [foldl_add_eq_sum]
    simp
  · intro h
    simp [getDashboardStats, h]
  · intro h
    simp [getDashboardStats, h]

/-- Sample one-element contract list used by several witnesses. -/
def sampleContract : Contract :=
  { id := "A", nombreContrato := "a", entidad := "E", monto := 5, fecha := none,
    nivelRiesgo := .high, probabilidadAnomalia := 80 }

/-- Sample list-endpoint response with a positive analyzed total. -/
def sampleResponse : ContractsApiResponse :=
  { totalContratosAnalizados := 4, contratosAltoRiesgo := 1, montoTotalCOP := 5,
    contratos := [] }

/-- Witness for C9 at a concrete one-element contract list and a response
with a positive analyzed total. -/
theorem claim9_witness :
    (([sampleContract] : List Contract) ≠ [])
    ∧ (getDashboardStats [sampleContract] sampleResponse).avgAnomaly =
        jsRound ((([sampleContract] : List Contract).map
          Contract.probabilidadAnomalia).sum / (([sampleContract] : List Contract).length : ℚ)) :=
  ⟨by decide,
    (claim9_getDashboardStats_guards _ _).2.1 (by decide)⟩

theorem fst_of_mem_limitParam {limit : Option Nat} {x : String × String}
    (h : x ∈ limitParam limit) : x.1 = "limit" := by
  unfold limitParam at h
  cases hl : limit with
  | none => rw [hl] at h; simp at h
  | some l => rw [hl] at h; simp at h; rw [h]

theorem fst_of_mem_fechaDesdeParam {f : ContractFilters} {x : String × String}
    (h : x ∈ fechaDesdeParam f) : x.1 = "fecha_desde" := by
  unfold fechaDesdeParam at h
  cases hf : f.fechaDesde with
  | none => rw [hf] at h; simp at h
  | some s =>
    rw [hf] at h
    by_cases hs : s = ""
    · simp [hs] at h
    · simp [hs] at h; rw [h]

theorem fst_of_mem_fechaHastaParam {f : ContractFilters} {x : String × String}
    (h : x ∈ fechaHastaParam f) : x.1 = "fecha_hasta" := by
  unfold fechaHastaParam at h
  cases hf : f.fechaHasta with
  | none => rw [hf] at h; simp at h
  | some s =>
    rw [hf] at h
    by_cases hs : s = ""
    · simp [hs] at h
    · simp [hs] at h; rw [h]

theorem fst_of_mem_valorMinimoParam {f : ContractFilters} {x : String × String}
    (h : x ∈ valorMinimoParam f) : x.1 = "valor_minimo" := by
  unfold valorMinimoParam at h
  cases hv : f.valorMinimo with
  | none => rw [hv] at h; simp at h
  | some v =>
    rw [hv] at h
    by_cases h0 : (0 : ℚ) ≤ v
    · simp [h0] at h; rw [h]
    · simp [h0] at h

theorem fst_of_mem_valorMaximoParam {f : ContractFilters} {x : String × String}
    (h : x ∈ valorMaximoParam f) : x.1 = "valor_maximo" := by
  unfold valorMaximoParam at h
  cases hv : f.valorMaximo with
  | none => rw [hv] at h; simp at h
  | some v =>
    rw [hv] at h
    by_cases h0 : (0 : ℚ) ≤ v
    · simp [h0] at h; rw [h]
    · simp [h0] at h

theorem fst_of_mem_nombreContratoParam {f : ContractFilters} {x : String × String}
    (h : x ∈ nombreContratoParam f) : x.1 = "nombre_contrato" := by
  unfold nombreContratoParam at h
  cases hn : f.nombreContrato with
  | none => rw [hn] at h; simp at h
  | some s =>
    rw [hn] at h
    by_cases h3 : 3 ≤ s.length
    · simp [h3] at h; rw [h]
    · simp [h3] at h

theorem fst_of_mem_idContratoParam {f : ContractFilters} {x : String × String}
    (h : x ∈ idContratoParam f) : x.1 = "id_contrato" := by
  unfold idContratoParam at h
  cases hi : f.idContrato with
  | none => rw [hi] at h; simp at h
  | some s =>
    rw [hi] at h
    by_cases hs : s = ""
    · simp [hs] at h
    · simp [hs] at h; rw [h]

/-- The filters whose only set field is a negative minimum amount. -/
def negativeBoundFilters : ContractFilters := { valorMinimo := some (-5) }

/-- C7 counterexample: for the filters whose `valorMinimo` is `-5`, the
built query string is empty — the negative value is dropped by the
`valorMinimo >= 0` guard, not passed through. -/
theorem claim7_counterexample :
    negativeBoundFilters.valorMinimo = some (-5)
    ∧ buildQueryParams (some negativeBoundFilters) none = "" :=
  ⟨rfl, by decide⟩

/-- C7 (amended): `buildQueryParams` omits a defined `valorMinimo` or
`valorMaximo` from the query parameters whenever it is negative, and
includes it whenever it is `≥ 0`; it has no error cases (it is a total
function). -/
theorem claim7_amended_negative_bounds_dropped (filters : ContractFilters)
    (limit : Option Nat) (v : ℚ) :
    (filters.valorMinimo = some v → v < 0 →
      "valor_minimo" ∉ (queryParamsList (some filters) limit).map Prod.fst)
    ∧ (filters.valorMaximo = some v → v < 0 →
      "valor_maximo" ∉ (queryParamsList (some filters) limit).map Prod.fst)
    ∧ (filters.valorMinimo = some v → 0 ≤ v →
      ("valor_minimo", toString v) ∈ queryParamsList (some filters) limit)
    ∧ (filters.valorMaximo = some v → 0 ≤ v →
      ("valor_maximo", toString v) ∈ queryParamsList (some filters) limit) := by
  refine ⟨?_, ?_, ?_, ?_⟩
  · intro hmin hneg hmem
    rcases List.mem_map.mp hmem with ⟨x, hx, hfst⟩
    simp only [queryParamsList, List.mem_append] at hx
    rcases hx with h | ((((h | h) | h) | h) | h) | h
    · rw [fst_of_mem_limitParam h] at hfst; exact absurd hfst (by decide)
    · rw [fst_of_mem_fechaDesdeParam h] at hfst; exact absurd hfst (by decide)
    · rw [fst_of_mem_fechaHastaParam h] at hfst; exact absurd hfst (by decide)
    · unfold valorMinimoParam at h
      rw [hmin] at h
      simp [not_le.mpr hneg] at h
    · rw [fst_of_mem_valorMaximoParam h] at hfst; exact absurd hfst (by decide)
    · rw [fst_of_mem_nombreContratoParam h] at hfst; exact absurd hfst (by decide)
    · rw [fst_of_mem_idContratoParam h] at hfst; exact absurd hfst (by decide)
  · intro hmax hneg hmem
    rcases List.mem_map.mp hmem with ⟨x, hx, hfst⟩
    simp only [queryParamsList, List.mem_append] at hx
    rcases hx with h | ((((h | h) | h) | h) | h) | h
    · rw [fst_of_mem_limitParam h] at hfst; exact absurd hfst (by decide)
    · rw [fst_of_mem_fechaDesdeParam h] at hfst; exact absurd hfst (by decide)
    · rw [fst_of_mem_fechaHastaParam h] at hfst; exact absurd hfst (by decide)
    · rw [fst_of_mem_valorMinimoParam h] at hfst; exact absurd hfst (by decide)
    · unfold valorMaximoParam at h
      rw [hmax] at h
      simp [not_le.mpr hneg] at h
    · rw [fst_of_mem_nombreContratoParam h] at hfst; exact absurd hfst (by decide)
    · rw [fst_of_mem_idContratoParam h] at hfst; exact absurd hfst (by decide)
  · intro hmin hge
    have hv : ("valor_minimo", toString v) ∈ valorMinimoParam filters := by
      simp [valorMinimoParam, hmin, hge]
    simp only [queryParamsList, List.mem_append]
    tauto
  · intro hmax hge
    have hv : ("valor_maximo", toString v) ∈ valorMaximoParam filters := by
      simp [valorMaximoParam, hmax, hge]
    simp only [queryParamsList, List.mem_append]
    tauto

/-- Witness for the amended C7 at the concrete negative bound `-5`. -/
theorem claim7_witness :
    negativeBoundFilters.valorMinimo = some (-5) ∧ ((-5 : ℚ) < 0) ∧
      "valor_minimo" ∉ (queryParamsList (some negativeBoundFilters) none).map Prod.fst :=
  ⟨rfl, by norm_num,
    (claim7_amended_negative_bounds_dropped negativeBoundFilters none (-5)).1 rfl (by norm_num)⟩

theorem flatten_take_pages {α : Type} (pageSize : Nat) :
    ∀ (m : Nat) (l : List α),
      ((List.range m).map (fun k => (l.drop (k * pageSize)).take pageSize)).flatten =
        l.take (m * pageSize)
  | 0, l => by simp
  | m + 1, l => by
    rw [List.range_succ, List.map_append, List.flatten_append,
      flatten_take_pages pageSize m l]
    simp only [List.map_cons, List.map_nil, List.flatten_cons, List.flatten_nil,
      List.append_nil]
    rw [Nat.succ_mul, List.take_add]

/-- C4: for every list and every `page ≥ 1`, `pageSize ≥ 1`, `paginateData`
returns a slice of length `min pageSize (totalItems - (page-1)*pageSize)`
(truncated subtraction playing the role of `max 0 _`); concatenating pages
`1..totalPages` reconstructs the list exactly; `totalPages` is zero exactly
for an empty list and equals `⌈totalItems / pageSize⌉`; and the two paging
flags are `page < totalPages` and `page > 1`. -/
theorem claim4_paginateData {α : Type} (data : List α) (page pageSize : Nat)
    (hpage : 1 ≤ page) (hsize : 1 ≤ pageSize) :
    ((paginateData data page pageSize).data.length =
        min pageSize (data.length - (page - 1) * pageSize))
    ∧ (((List.range (paginateData data page pageSize).totalPages).map
        (fun k => (paginateData data (k + 1) pageSize).data)).flatten = data)
    ∧ ((paginateData data page pageSize).totalPages = 0 ↔ data.length = 0)
    ∧ (((paginateData data page pageSize).totalPages : ℤ) =
        ⌈(data.length : ℚ) / (pageSize : ℚ)⌉)
    ∧ ((paginateData data page pageSize).hasNextPage = true ↔
        page < (paginateData data page pageSize).totalPages)
    ∧ ((paginateData data page pageSize).hasPrevPage = true ↔ 1 < page) := by
  have hps : 0 < pageSize := hsize
  have hceil : (data.length + pageSize - 1) / pageSize = data.length ⌈/⌉ pageSize :=
    (Nat.ceilDiv_eq_add_pred_div _ _).symm
  have hub : data.length ≤ pageSize * (data.length ⌈/⌉ pageSize) := by
    have := le_smul_ceilDiv (b := data.length) hps
    simpa [smul_eq_mul] using this
  have hlb : pageSize * (data.length ⌈/⌉ pageSize) < data.length + pageSize := by
    by_cases hzero : data.length ⌈/⌉ pageSize = 0
    · rw [hzero, Nat.mul_zero]
      omega
    · have h1 : 1 ≤ data.length ⌈/⌉ pageSize := Nat.one_le_iff_ne_zero.mpr hzero
      by_contra hcon
      push_neg at hcon
      have hexp : pageSize * (data.length ⌈/⌉ pageSize) =
          pageSize * (data.length ⌈/⌉ pageSize - 1) + pageSize := by
        have hs : data.length ⌈/⌉ pageSize - 1 + 1 = data.length ⌈/⌉ pageSize :=
          Nat.succ_pred_eq_of_pos h1
        calc pageSize * (data.length ⌈/⌉ pageSize)
            = pageSize * (data.length ⌈/⌉ pageSize - 1 + 1) := by rw [hs]
          _ = pageSize * (data.length ⌈/⌉ pageSize - 1) + pageSize := by
              rw [Nat.mul_succ]
      have hle : data.length ≤ pageSize * (data.length ⌈/⌉ pageSize - 1) := by omega
      have := (ceilDiv_le_iff_le_mul hps).mpr hle
      omega
  rw [← hceil] at hub hlb
  refine ⟨?_, ?_, ?_, ?_, ?_, ?_⟩
  · simp [paginateData]
  · simp only [paginateData, Nat.add_sub_cancel]
    rw [flatten_take_pages]
    apply List.take_of_length_le
    rw [Nat.mul_comm]
    exact hub
  · simp only [paginateData]
    constructor
    · intro h0
      rw [h0, Nat.mul_zero] at hub
      omega
    · intro hl
      rw [hl]
      exact Nat.div_eq_of_lt (by omega)
  · simp only [paginateData]
    have hQps : (0 : ℚ) < (pageSize : ℚ) := by exact_mod_cast hps
    have hlbQ : (pageSize : ℚ) * ((data.length + pageSize - 1) / pageSize : Nat) <
        (data.length : ℚ) + (pageSize : ℚ) := by exact_mod_cast hlb
    have hubQ : (data.length : ℚ) ≤
        (pageSize : ℚ) * ((data.length + pageSize - 1) / pageSize : Nat) := by
      exact_mod_cast hub
    symm
    rw [Int.ceil_eq_iff]
    constructor
    · rw [lt_div_iff₀ hQps]
      simp only [Int.cast_natCast]
      nlinarith [hlbQ]
    · rw [div_le_iff₀ hQps]
      simp only [Int.cast_natCast]
      nlinarith [hubQ]
  · simp [paginateData]
  · simp [paginateData]

/-- Witness for C4 at a concrete three-element list with page 2 of size 2. -/
theorem claim4_witness :
    1 ≤ 2 ∧ 1 ≤ 2 ∧
      (paginateData [10, 20, 30] 2 2).data.length =
        min 2 (([10, 20, 30] : List Nat).length - (2 - 1) * 2) :=
  ⟨by decide, by decide, (claim4_paginateData [10, 20, 30] 2 2 (by decide) (by decide)).1⟩

/-- A contract with no start date. -/
def nullFechaContract : Contract :=
  { id := "N", nombreContrato := "n", entidad := "E1", monto := 1, fecha := none,
    nivelRiesgo := .low, probabilidadAnomalia := 10 }

/-- A contract dated one day after the epoch. -/
def laterFechaContract : Contract :=
  { id := "P", nombreContrato := "p", entidad := "E2", monto := 2, fecha := some 86400000,
    nivelRiesgo := .medium, probabilidadAnomalia := 20 }

/-- C2 counterexample: sorting `[null-date, later-date]` by `fecha`
ascending keeps the null-date contract first (its key is the epoch `0`,
below every positive timestamp), so the output violates
"every null fecha appears after every non-null fecha" in ascending
direction, and the descending output likewise violates "every null fecha
appears before every non-null fecha". -/
theorem claim2_counterexample :
    ¬ ((sortContracts [nullFechaContract, laterFechaContract] (some .fecha)
          .asc).Pairwise (fun a b => a.fecha = none → b.fecha = none)
      ∧ (sortContracts [nullFechaContract, laterFechaContract] (some .fecha)
          .desc).Pairwise (fun a b => a.fecha ≠ none → b.fecha ≠ none)) := by
  decide

/-- C2 (amended): `sortContracts` treats a missing `fecha` as the epoch
timestamp `0`.  Hence in ascending order every date that appears before a
null-date contract has timestamp `≤ 0` and every date after one has
timestamp `≥ 0`; in descending order the inequalities are reversed.  (The
claimed null-last/null-first behavior only holds against dates on the
corresponding side of the epoch.) -/
theorem claim2_amended_null_fecha_epoch (l : List Contract) :
    ((sortContracts l (some .fecha) .asc).Pairwise (fun a b =>
        (a.fecha = none → ∀ t, b.fecha = some t → 0 ≤ t)
      ∧ (∀ t, a.fecha = some t → b.fecha = none → t ≤ 0)))
    ∧ ((sortContracts l (some .fecha) .desc).Pairwise (fun a b =>
        (a.fecha = none → ∀ t, b.fecha = some t → t ≤ 0)
      ∧ (∀ t, a.fecha = some t → b.fecha = none → 0 ≤ t))) := by
  constructor
  · have hs : (sortContracts l (some .fecha) .asc).Pairwise (contractLe .fecha .asc) :=
      List.sorted_insertionSort (contractLe .fecha .asc) l
    refine hs.imp ?_
    intro a b hab
    constructor
    · intro ha t hb
      simp only [contractLe] at hab
      rw [ha, hb] at hab
      simpa using hab
    · intro t ha hb
      simp only [contractLe] at hab
      rw [ha, hb] at hab
      simpa using hab
  · have hs : (sortContracts l (some .fecha) .desc).Pairwise (contractLe .fecha .desc) :=
      List.sorted_insertionSort (contractLe .fecha .desc) l
    refine hs.imp ?_
    intro a b hab
    constructor
    · intro ha t hb
      simp only [contractLe] at hab
      rw [ha, hb] at hab
      simpa using hab
    · intro t ha hb
      simp only [contractLe] at hab
      rw [ha, hb] at hab
      simpa using hab

/-- C6: `sortContracts` is stable for every field and direction — whenever
`a` appears before `b` in the input (as the sublist `[a, b]`) and the two
contracts have equal sort keys, `a` still appears before `b` in the output
(`[a, b]` is a sublist of the sorted list). -/
theorem claim6_sortContracts_stable (field : SortField) (direction : SortDirection)
    (a b : Contract) (l : List Contract) (hkey : sortKeyEqual field a b)
    (hsub : List.Sublist [a, b] l) :
    List.Sublist [a, b] (sortContracts l (some field) direction) :=
  List.pair_sublist_insertionSort (contractLe_of_sortKeyEqual direction hkey) hsub

/-- Witness for C6: two contracts with equal `monto` keys keep their order
when sorting by `monto` descending. -/
theorem claim6_witness :
    sortKeyEqual .monto nullFechaContract
        { nullFechaContract with id := "N2", monto := 1 }
    ∧ List.Sublist [nullFechaContract, { nullFechaContract with id := "N2", monto := 1 }]
        [nullFechaContract, { nullFechaContract with id := "N2", monto := 1 }]
    ∧ List.Sublist [nullFechaContract, { nullFechaContract with id := "N2", monto := 1 }]
        (sortContracts
          [nullFechaContract, { nullFechaContract with id := "N2", monto := 1 }]
          (some .monto) .desc) :=
  ⟨by decide, by decide,
    claim6_sortContracts_stable .monto .desc _ _ _ (by decide) (by decide)⟩

/-- A raw record whose amount string is negative; it passes every check of
the validity filter. -/
def negAmountRecord : ApiContract :=
  { Contrato := { Codigo := "C-001", Descripcion := "Obra vial" }
    Entidad := "Alcaldia"
    Monto := "-5"
    FechaInicio := none
    NivelRiesgo := "Alto"
    Anomalia := 80 }

/-- A list response containing only the negative-amount record. -/
def negAmountResponse : ContractsApiResponse :=
  { totalContratosAnalizados := 1, contratosAltoRiesgo := 1, montoTotalCOP := -5,
    contratos := [negAmountRecord] }

/-- C1 counterexample: the record with amount string `"-5"` is accepted
into the working set by `fetchContracts` (the validity filter never looks
at the sign of the amount) and its normalized `monto` is `-5 < 0`, violating
the claimed invariant `monto ≥ 0`. -/
theorem claim1_counterexample :
    isValidApiContract negAmountRecord = true
    ∧ (fetchContracts (fun _ => 0) negAmountResponse).contracts =
        [transformApiContract (fun _ => 0) negAmountRecord]
    ∧ (transformApiContract (fun _ => 0) negAmountRecord).monto < 0 := by
  refine ⟨by decide, rfl, ?_⟩
  have h : jsParseFloat (cleanAmount "-5") = some (-5) := by
    have hc : cleanAmount "-5" = ['-', '5'] := by decide
    rw [hc]
    simp +decide [jsParseFloat, digitsToNat]
  show (jsParseFloat (cleanAmount negAmountRecord.Monto)).getD 0 < 0
  rw [show negAmountRecord.Monto = "-5" from rfl, h]
  norm_num

/-- C1 (amended): every record accepted by the validity filter is kept in
the working set whatever its amount parses to; the normalized `monto` is
the parsed value of the cleaned amount string when it parses (hence `≥ 0`
exactly when that value is non-negative) and `0` when it does not parse.
The detail-path transformation normalizes the amount the same way. -/
theorem claim1_amended_monto (newDate : String → Int) (c : ApiContract)
    (resp : ContractsApiResponse) (hmem : c ∈ resp.contratos)
    (hval : isValidApiContract c = true) :
    transformApiContract newDate c ∈ (fetchContracts newDate resp).contracts
    ∧ (jsParseFloat (cleanAmount c.Monto) = none →
        (transformApiContract newDate c).monto = 0)
    ∧ (∀ q, jsParseFloat (cleanAmount c.Monto) = some q →
        (transformApiContract newDate c).monto = q)
    ∧ (∀ q, jsParseFloat (cleanAmount c.Monto) = some q → 0 ≤ q →
        0 ≤ (transformApiContract newDate c).monto)
    ∧ (∀ dc : ApiDetailContract, jsParseFloat (cleanAmount (ApiDetailContract.monto dc)) = none →
        (transformDetailContract newDate dc).monto = 0)
    ∧ (∀ (dc : ApiDetailContract) (q : ℚ),
        jsParseFloat (cleanAmount (ApiDetailContract.monto dc)) = some q →
        (transformDetailContract newDate dc).monto = q) := by
  refine ⟨?_, ?_, ?_, ?_, ?_, ?_⟩
  · exact List.mem_map_of_mem _ (List.mem_filter.mpr ⟨hmem, hval⟩)
  · intro h
    simp [transformApiContract, h]
  · intro q h
    simp [transformApiContract, h]
  · intro q h hq
    simp [transformApiContract, h]
    exact hq
  · intro dc h
    simp [transformDetailContract, h]
  · intro dc q h
    simp [transformDetailContract, h]

/-- Witness for the amended C1 at the concrete negative-amount record. -/
theorem claim1_witness :
    negAmountRecord ∈ negAmountResponse.contratos
    ∧ isValidApiContract negAmountRecord = true
    ∧ transformApiContract (fun _ => 0) negAmountRecord ∈
        (fetchContracts (fun _ => 0) negAmountResponse).contracts :=
  ⟨by decide, by decide,
    (claim1_amended_monto (fun _ => 0) negAmountRecord negAmountResponse
      (by decide) (by decide)).1⟩

/-- A raw record whose amount uses Colombian thousands separators. -/
def thousandsAmountRecord : ApiContract :=
  { Contrato := { Codigo := "C-002", Descripcion := "Suministro" }
    Entidad := "Gobernacion"
    Monto := "$ 1.234.567"
    FechaInicio := none
    NivelRiesgo := "Bajo"
    Anomalia := 5 }

/-- C3: evaluating the code at the amount string `"$ 1.234.567"`.  After
stripping, `parseFloat("1.234.567")` consumes only the prefix `1.234`
(parsing stops at the second dot), so the normalized `monto` is `1.234`
and not the `1234567` required by the claim. -/
theorem claim3_thousands_amount_eval :
    (transformApiContract (fun _ => 0) thousandsAmountRecord).monto = 1234 / 1000
    ∧ (transformApiContract (fun _ => 0) thousandsAmountRecord).monto ≠ 1234567 := by
  have h1 : (transformApiContract (fun _ => 0) thousandsAmountRecord).monto = 1234 / 1000 := by
    have h : jsParseFloat (cleanAmount "$ 1.234.567") = some (1234 / 1000) := by
      have hc : cleanAmount "$ 1.234.567" = ['1', '.', '2', '3', '4', '.', '5', '6', '7'] := by
        decide
      rw [hc]
      simp +decide [jsParseFloat, digitsToNat]
      norm_num
    show (jsParseFloat (cleanAmount thousandsAmountRecord.Monto)).getD 0 = 1234 / 1000
    rw [show thousandsAmountRecord.Monto = "$ 1.234.567" from rfl, h]
    rfl
  refine ⟨h1, ?_⟩
  rw [h1]
  norm_num

/-- C5: whenever the detail round trip fails in any modelled way
(transport error, non-2xx status including 404, or a 2xx body missing the
contract or the analysis object), `fetchContractAnalysis` returns the
local fallback pair instead of raising, and — for a non-empty mock
dataset — that fallback exists and carries `analysis.contractId` equal to
the requested id. -/
theorem claim5_fetchContractAnalysis_fallback (newDate : String → Int)
    (mockContracts : List Contract) (mockAnalyses : List (String × ContractAnalysis))
    (contractId : String) (outcome : DetailFetchOutcome)
    (hmc : mockContracts ≠ []) (hma : mockAnalyses ≠ [])
    (hfail : ∀ body, outcome = .okBody body →
      body.contract = none ∨ body.analysis = none) :
    fetchContractAnalysis newDate mockContracts mockAnalyses contractId outcome =
        getMockAnalysisForContract mockContracts mockAnalyses contractId
    ∧ ∃ result, getMockAnalysisForContract mockContracts mockAnalyses contractId =
          some result
        ∧ result.analysis.contractId = contractId := by
  constructor
  · cases outcome with
    | transportError => rfl
    | badStatus s => rfl
    | okBody body =>
      obtain ⟨bc, ba⟩ := body
      cases bc with
      | none => cases ba <;> rfl
      | some c =>
        cases ba with
        | none => rfl
        | some a =>
          rcases hfail ⟨some c, some a⟩ rfl with h | h <;> simp at h
  · cases mockContracts with
    | nil => exact absurd rfl hmc
    | cons c0 mc =>
      cases mockAnalyses with
      | nil => exact absurd rfl hma
      | cons a0 ma =>
        unfold getMockAnalysisForContract
        cases hf : (c0 :: mc).find? (fun c => c.id == contractId) with
        | none => exact ⟨_, rfl, rfl⟩
        | some c =>
          cases hfa : ((a0 :: ma).find? (fun p => p.1 == contractId)) with
          | none => exact ⟨_, rfl, rfl⟩
          | some p => exact ⟨_, rfl, rfl⟩

/-- Sample analysis paired with `sampleContract` as a one-entry mock
dataset. -/
def sampleAnalysis : ContractAnalysis :=
  { contractId := "A", resumenEjecutivo := "r", factoresPrincipales := [],
    recomendaciones := [], shapValues := [], probabilidadBase := 50, confianza := 90,
    fechaAnalisis := 0 }

/-- Witness for C5: a transport failure for an unknown id against the
one-entry mock dataset yields the fallback. -/
theorem claim5_witness :
    (([sampleContract] : List Contract) ≠ [])
    ∧ (([("A", sampleAnalysis)] : List (String × ContractAnalysis)) ≠ [])
    ∧ fetchContractAnalysis (fun _ => 0) [sampleContract] [("A", sampleAnalysis)]
          "UNKNOWN-9" DetailFetchOutcome.transportError =
        getMockAnalysisForContract [sampleContract] [("A", sampleAnalysis)] "UNKNOWN-9" :=
  ⟨by decide, by decide,
    (claim5_fetchContractAnalysis_fallback (fun _ => 0) [sampleContract]
      [("A", sampleAnalysis)] "UNKNOWN-9" .transportError (by decide) (by decide)
      (fun body h => nomatch h)).1⟩

/-- Closed instance of the amended C2 at a concrete two-element list. -/
theorem claim2_amended_witness :
    ((sortContracts [nullFechaContract, laterFechaContract] (some .fecha) .asc).Pairwise
        (fun a b => (a.fecha = none → ∀ t, b.fecha = some t → 0 ≤ t)
          ∧ (∀ t, a.fecha = some t → b.fecha = none → t ≤ 0)))
    ∧ ((sortContracts [nullFechaContract, laterFechaContract] (some .fecha) .desc).Pairwise
        (fun a b => (a.fecha = none → ∀ t, b.fecha = some t → t ≤ 0)
          ∧ (∀ t, a.fecha = some t → b.fecha = none → 0 ≤ t))) :=
  claim2_amended_null_fecha_epoch [nullFechaContract, laterFechaContract]

/-- Closed instance of C8 at a concrete filter and one-element list. -/
theorem claim8_witness :
    filterByRiskLevels { nivelesRiesgo := some [RiskLevel.high] }
        (filterByRiskLevels { nivelesRiesgo := some [RiskLevel.high] } [sampleContract]) =
      filterByRiskLevels { nivelesRiesgo := some [RiskLevel.high] } [sampleContract]
    ∧ List.Sublist
        (filterByRiskLevels { nivelesRiesgo := some [RiskLevel.high] } [sampleContract])
        [sampleContract] :=
  claim8_filterByRiskLevels_idempotent_order_preserving
    { nivelesRiesgo := some [RiskLevel.high] } [sampleContract]
